import Mathlib

/-!
Verification of the tumblream poller (`main.go`) against its specification.

The Go program polls tumblr photo feeds, walks paginated post lists per
feed keeping a per-feed watermark (`Agent.lastId`, `0` meaning absent),
emits photo URLs onto a download queue, and a saver downloads each URL to
a file named by the URL's final path segment, using an exclusive-create
open as the only deduplication mechanism.

The embedding below translates the relevant functions:
  * `Agent.Run` (main.go:102-157)  → `Tumblream.Agent.run`
  * the per-agent scheduler closure (main.go:53-59, `Agent.Reset`
    main.go:94-96) → `Tumblream.tickAgent`
  * `Saver.Save` (main.go:216-245) → `Tumblream.Saver.save`

Network and filesystem effects are made explicit: a scan consumes the
sequence of fetch results at offsets 0, 20, 40, … (after the supplied
list, fetch yields an empty page: the remote feed is finite); the saver
takes the network as a function from URL to optional body and the
directory contents as an association list from filename to content, and
reports how many HTTP requests the call performed.
-/

namespace Tumblream

/-- One entry of a photo's `alt_sizes` list (main.go:81-85).  The Go
struct also carries `width`/`height` floats; they are never read by the
program, so they are omitted from the model. -/
structure AltSize where
  url : String
  deriving Repr, DecidableEq

/-- `TumblrResponsePhoto` (main.go:80-86): a photo with its list of size
variants. -/
structure TumblrResponsePhoto where
  altSizes : List AltSize
  deriving Repr, DecidableEq

/-- One post of a page (main.go:73-76): an id and its photos. -/
structure Post where
  id : Int
  photos : List TumblrResponsePhoto
  deriving Repr, DecidableEq

/-- Result of one `Agent.Fetch` call as seen by `Agent.Run`: either a
decoded page of posts, or an error (transport failure, JSON decode
failure, or non-200 embedded status, main.go:159-192). -/
inductive FetchResult where
  | ok (posts : List Post)
  | err (reason : String)
  deriving Repr, DecidableEq

/-- How a scan ends: normally (`Run` returns nil), with a fetch error
(`Run` returns it, main.go:114-117), or with a Go panic — the index
expression `photo.AltSizes[0]` at main.go:144 panics when `alt_sizes`
is empty. -/
inductive ScanOutcome where
  | ok
  | fetchErr (reason : String)
  | panicked
  deriving Repr, DecidableEq

/-- The inner photo loop of `Agent.Run` (main.go:143-145): emit
`photo.AltSizes[0].Url` for each photo in order.  Returns the URLs sent
before a possible panic, and whether the indexing `AltSizes[0]` panicked
on an empty variant list. -/
def emitPhotos : List TumblrResponsePhoto → List String × Bool
  | [] => ([], false)
  | ph :: rest =>
    match ph.altSizes with
    | [] => ([], true)
    | a :: _ =>
      let r := emitPhotos rest
      (a.url :: r.1, r.2)

/-- Outcome of the post loop of one page (main.go:133-146): either all
posts processed and the outer loop continues to the next offset, or a
`break OUTER` (watermark hit or overshoot), or a panic; each carries the
URLs emitted up to that point. -/
inductive PostsStep where
  | cont (urls : List String)
  | stop (urls : List String)
  | panic (urls : List String)
  deriving Repr, DecidableEq

/-- The post loop of `Agent.Run` (main.go:133-146) for watermark `w`
(`a.lastId`): stop on `w == post.Id`, stop on `w > post.Id`, otherwise
emit the post's photos and continue. -/
def processPosts (w : Int) : List Post → PostsStep
  | [] => .cont []
  | p :: rest =>
    if w = p.id then .stop []
    else if p.id < w then .stop []
    else
      let e := emitPhotos p.photos
      if e.2 then .panic e.1
      else
        match processPosts w rest with
        | .cont us => .cont (e.1 ++ us)
        | .stop us => .stop (e.1 ++ us)
        | .panic us => .panic (e.1 ++ us)

/-- State returned by the paging loop of `Agent.Run`: emitted URLs, the
local `lastId` variable (the watermark candidate recorded from the first
post of the first non-empty page, main.go:124-126), and how the loop
ended. -/
structure LoopResult where
  emitted : List String
  firstSeen : Int
  outcome : ScanOutcome
  deriving Repr, DecidableEq

/-- The paging loop of `Agent.Run` (main.go:112-149).  `w` is the
agent's stored `lastId` (0 = absent watermark), `firstSeen` the local
`lastId` variable.  The list holds the fetch results at offsets
0, 20, 40, …; past its end the remote feed is exhausted and fetch
returns an empty page. -/
def runLoop (w : Int) (firstSeen : Int) : List FetchResult → LoopResult
  | [] => ⟨[], firstSeen, .ok⟩
  | .err r :: _ => ⟨[], firstSeen, .fetchErr r⟩
  | .ok posts :: rest =>
    match posts with
    | [] => ⟨[], firstSeen, .ok⟩
    | p0 :: ps =>
      let fs := if firstSeen = 0 then p0.id else firstSeen
      if w = 0 then ⟨[], fs, .ok⟩
      else
        match processPosts w (p0 :: ps) with
        | .stop us => ⟨us, fs, .ok⟩
        | .panic us => ⟨us, fs, .panicked⟩
        | .cont us =>
          let r := runLoop w fs rest
          ⟨us ++ r.emitted, r.firstSeen, r.outcome⟩

/-- Result of one `Agent.Run` call: URLs sent to the queue, the agent's
`lastId` field after the call, and how the call ended. -/
structure RunResult where
  emitted : List String
  lastId : Int
  outcome : ScanOutcome
  deriving Repr, DecidableEq

/-- `Agent.Run` (main.go:102-157): run the paging loop from offset 0
with local `lastId = 0`; on normal termination update the stored
watermark to the recorded first-seen id when it is non-zero and differs
(main.go:151-154); on a fetch error return it with the watermark
untouched (main.go:114-117); a panic also leaves the field untouched. -/
def Agent.run (w : Int) (pages : List FetchResult) : RunResult :=
  let r := runLoop w 0 pages
  match r.outcome with
  | .ok =>
    ⟨r.emitted, if r.firstSeen ≠ 0 ∧ w ≠ r.firstSeen then r.firstSeen else w, .ok⟩
  | .fetchErr e => ⟨r.emitted, w, .fetchErr e⟩
  | .panicked => ⟨r.emitted, w, .panicked⟩

/-- One scheduler tick for one agent (main.go:53-59): run the scan; on a
returned error call `Agent.Reset` (main.go:94-96), i.e. set the
watermark to 0 (absent).  A Go panic in the goroutine kills the process,
so no watermark value exists afterwards: modelled as `none`. -/
def tickAgent (w : Int) (pages : List FetchResult) : Option Int :=
  let r := Agent.run w pages
  match r.outcome with
  | .ok => some r.lastId
  | .fetchErr _ => some 0
  | .panicked => none

/-- The canonical URL of each photo of a post: the first `alt_sizes`
entry's URL; photos with an empty variant list have none. -/
def canonicalUrls (p : Post) : List String :=
  p.photos.filterMap (fun ph => ph.altSizes.head?.map AltSize.url)

/-- A post obeying the data-model invariant: every declared photo has at
least one size variant. -/
def WellFormedPost (p : Post) : Prop :=
  ∀ ph ∈ p.photos, ph.altSizes ≠ []

instance (p : Post) : Decidable (WellFormedPost p) := by
  unfold WellFormedPost; infer_instance

end Tumblream

namespace Tumblream

theorem runLoop_empty_page (w firstSeen : Int) (rest : List FetchResult) :
    runLoop w firstSeen (.ok [] :: rest) = ⟨[], firstSeen, .ok⟩ := rfl

theorem runLoop_err (w firstSeen : Int) (r : String) (rest : List FetchResult) :
    runLoop w firstSeen (.err r :: rest) = ⟨[], firstSeen, .fetchErr r⟩ := rfl

/-- C4: with an absent watermark (stored `lastId = 0`), a scan whose
first page holds at least one post emits no URL, ends successfully
without looking at later fetch results, and afterwards the watermark
equals the id of the first (newest) post of that first page. -/
theorem bootstrap_scan (p0 : Post) (ps : List Post) (rest : List FetchResult) :
    Agent.run 0 (.ok (p0 :: ps) :: rest) = ⟨[], p0.id, .ok⟩ := by
  unfold Agent.run runLoop
  by_cases h : p0.id = 0 <;> simp [h]

/-- C9: a scan whose first page is empty returns success and leaves the
watermark exactly as it was, absent or present. -/
theorem empty_first_page_scan (w : Int) (rest : List FetchResult) :
    Agent.run w (.ok [] :: rest) = ⟨[], w, .ok⟩ := by
  unfold Agent.run
  rw [runLoop_empty_page]
  simp

/-- C6: when a scan ends in a fetch error, `Agent.run` returns that
error and the agent's `lastId` field is unchanged: the reset is left to
the scheduler. -/
theorem fetch_error_preserves_watermark (w : Int) (pages : List FetchResult)
    (r : String) (h : (Agent.run w pages).outcome = .fetchErr r) :
    (Agent.run w pages).lastId = w := by
  unfold Agent.run at *
  cases hl : (runLoop w 0 pages).outcome <;> simp [hl] at h ⊢

/-- Witness for C6 at a concrete input: watermark 7, first fetch fails. -/
theorem fetch_error_preserves_watermark_witness :
    (Agent.run 7 [.err "timeout"]).lastId = 7 :=
  fetch_error_preserves_watermark 7 [.err "timeout"] "timeout" rfl

/-- C5: whenever an agent's scan returns a fetch error, the scheduler
tick resets that agent's watermark to 0 (absent), whatever it was
before. -/
theorem tick_resets_on_fetch_error (w : Int) (pages : List FetchResult)
    (r : String) (h : (Agent.run w pages).outcome = .fetchErr r) :
    tickAgent w pages = some 0 := by
  simp only [tickAgent]
  rw [h]

/-- Witness for C5 at a concrete input: watermark 42, first fetch fails. -/
theorem tick_resets_on_fetch_error_witness :
    tickAgent 42 [.err "boom"] = some 0 :=
  tick_resets_on_fetch_error 42 [.err "boom"] "boom" rfl

end Tumblream

namespace Tumblream

/-- The final path segment of a URL: `strings.Split(url, "/")` and take
the last element (main.go:217-218), i.e. the characters after the last
slash (the whole string when there is none, empty when the URL ends in
a slash). -/
def lastSegment (url : String) : String :=
  ⟨(url.data.reverse.takeWhile (fun c => c ≠ '/')).reverse⟩

/-- The network as seen by `http.Get`: a URL either yields a body or a
transport error. -/
def Net : Type := String → Option String

/-- The output directory's contents: filename to file content.  Earlier
entries shadow later ones, but `Saver.save` only ever prepends filenames
that are not yet present, so each filename has at most one binding. -/
def fsLookup : List (String × String) → String → Option String
  | [], _ => none
  | (k, v) :: rest, name => if k = name then some v else fsLookup rest name

/-- `Saver` (main.go:194-197): the output directory.  The queue channel
is modelled by passing URL lists to `saveAll` directly. -/
structure Saver where
  dir : String
  deriving Repr, DecidableEq

/-- The output filename for a URL: `filepath.Join(s.Dir, lastSegment)`
(main.go:218), modelled as the plain `dir/segment` concatenation. -/
def Saver.fileNameOf (s : Saver) (url : String) : String :=
  s.dir ++ "/" ++ lastSegment url

/-- What one `Saver.Save` call returns (main.go:216-245): a fresh file
was written, the file already existed and the call skipped it returning
nil, or the HTTP fetch failed and the error was returned. -/
inductive SaveResult where
  | saved
  | skipExisting
  | fetchFailed
  deriving Repr, DecidableEq

/-- Observable effect of one `Saver.Save` call: its return value, the
directory contents afterwards, and the number of HTTP requests the call
performed. -/
structure SaveOutcome where
  result : SaveResult
  fs : List (String × String)
  fetches : Nat
  deriving Repr, DecidableEq

/-- `Saver.Save` (main.go:216-245), in the source's order of effects:
derive the filename, perform `http.Get(url)` unconditionally
(main.go:220, hence `fetches = 1` on every path), then open the file
with `O_CREATE|O_EXCL` — if it already exists, return nil without
touching it (main.go:227-232); otherwise create it and copy the body
into it (main.go:238). -/
def Saver.save (s : Saver) (net : Net) (fs : List (String × String))
    (url : String) : SaveOutcome :=
  let fileName := s.fileNameOf url
  match net url with
  | none => ⟨.fetchFailed, fs, 1⟩
  | some body =>
    match fsLookup fs fileName with
    | some _ => ⟨.skipExisting, fs, 1⟩
    | none => ⟨.saved, (fileName, body) :: fs, 1⟩

/-- A sequence of `Saver.Save` calls (the saver goroutines draining the
queue, main.go:205-214), threaded through the directory state. -/
def Saver.saveAll (s : Saver) (net : Net) (fs : List (String × String)) :
    List String → List (String × String)
  | [] => fs
  | u :: rest => s.saveAll net (s.save net fs u).fs rest

theorem save_preserves_entry (s : Saver) (net : Net)
    (fs : List (String × String)) (u f c : String)
    (h : fsLookup fs f = some c) :
    fsLookup (s.save net fs u).fs f = some c := by
  simp only [Saver.save]
  cases hn : net u with
  | none => exact h
  | some body =>
    cases hl : fsLookup fs (s.fileNameOf u) with
    | some v => exact h
    | none =>
      have hne : s.fileNameOf u ≠ f := by
        intro he
        rw [he, h] at hl
        exact Option.noConfusion hl
      simpa [fsLookup, hne] using h

/-- C8: a file already present in the output directory keeps its content
across any sequence of `save` calls — `save` opens with
`O_CREATE|O_EXCL` and never writes through an existing name. -/
theorem existing_file_never_overwritten (s : Saver) (net : Net)
    (fs : List (String × String)) (urls : List String) (f c : String)
    (h : fsLookup fs f = some c) :
    fsLookup (s.saveAll net fs urls) f = some c := by
  induction urls generalizing fs with
  | nil => exact h
  | cons u rest ih =>
    exact ih _ (save_preserves_entry s net fs u f c h)

/-- Witness for C8: a pre-existing `out/a.jpg` with content `OLD`
survives saves of a colliding URL and of a fresh URL. -/
theorem existing_file_never_overwritten_witness :
    fsLookup ((Saver.mk "out").saveAll (fun _ => some "NEW")
      [("out/a.jpg", "OLD")] ["http://x/a.jpg", "http://x/b.jpg"])
      "out/a.jpg" = some "OLD" :=
  existing_file_never_overwritten (Saver.mk "out") (fun _ => some "NEW")
    [("out/a.jpg", "OLD")] ["http://x/a.jpg", "http://x/b.jpg"]
    "out/a.jpg" "OLD" rfl

end Tumblream

namespace Tumblream

/-- C2 counterexample: `Save` performs `http.Get` before checking for
the file (main.go:220 vs main.go:227), so the second of two sequential
calls on the same URL skips the existing file yet still performs one
HTTP fetch, not zero as claimed. -/
theorem second_save_fetches_counterexample :
    (((Saver.mk "out").save (fun _ => some "BYTES")
        (((Saver.mk "out").save (fun _ => some "BYTES") [] "http://x/a.jpg").fs)
        "http://x/a.jpg").result = SaveResult.skipExisting) ∧
    (((Saver.mk "out").save (fun _ => some "BYTES")
        (((Saver.mk "out").save (fun _ => some "BYTES") [] "http://x/a.jpg").fs)
        "http://x/a.jpg").fetches ≠ 0) := by
  constructor
  · rfl
  · decide

/-- C2 (amended): when the URL is fetchable and its file is not yet
present, the first `save` writes the file and the second returns the
skip success without touching the directory, leaving the content equal
to the first download — but the second call still performs exactly one
HTTP fetch, whose response is discarded. -/
theorem second_save_skips (s : Saver) (net : Net)
    (fs0 : List (String × String)) (url body : String)
    (hnet : net url = some body)
    (habs : fsLookup fs0 (s.fileNameOf url) = none) :
    (s.save net fs0 url).result = .saved ∧
    (s.save net (s.save net fs0 url).fs url).result = .skipExisting ∧
    (s.save net (s.save net fs0 url).fs url).fs = (s.save net fs0 url).fs ∧
    fsLookup (s.save net (s.save net fs0 url).fs url).fs (s.fileNameOf url)
      = some body ∧
    (s.save net (s.save net fs0 url).fs url).fetches = 1 := by
  simp only [Saver.save, hnet, habs]
  simp [fsLookup]

/-- Witness for the amended C2 at a concrete input. -/
theorem second_save_skips_witness :
    ((Saver.mk "out").save (fun _ => some "B") [] "http://x/a.jpg").result
      = .saved ∧
    ((Saver.mk "out").save (fun _ => some "B")
        (((Saver.mk "out").save (fun _ => some "B") [] "http://x/a.jpg").fs)
        "http://x/a.jpg").result = .skipExisting ∧
    ((Saver.mk "out").save (fun _ => some "B")
        (((Saver.mk "out").save (fun _ => some "B") [] "http://x/a.jpg").fs)
        "http://x/a.jpg").fs
      = ((Saver.mk "out").save (fun _ => some "B") [] "http://x/a.jpg").fs ∧
    fsLookup ((Saver.mk "out").save (fun _ => some "B")
        (((Saver.mk "out").save (fun _ => some "B") [] "http://x/a.jpg").fs)
        "http://x/a.jpg").fs ((Saver.mk "out").fileNameOf "http://x/a.jpg")
      = some "B" ∧
    ((Saver.mk "out").save (fun _ => some "B")
        (((Saver.mk "out").save (fun _ => some "B") [] "http://x/a.jpg").fs)
        "http://x/a.jpg").fetches = 1 :=
  second_save_skips (Saver.mk "out") (fun _ => some "B") [] "http://x/a.jpg" "B"
    rfl rfl

/-- C10: two URLs sharing their final path segment map to the same
output file; after the first is saved, saving the second (when its fetch
succeeds) creates no file, returns the skip success, and the file keeps
the bytes downloaded from the first URL. -/
theorem same_segment_urls_collide (s : Saver) (net : Net)
    (fs0 : List (String × String)) (url1 url2 body1 body2 : String)
    (hne : url1 ≠ url2)
    (hseg : lastSegment url1 = lastSegment url2)
    (hnet1 : net url1 = some body1) (hnet2 : net url2 = some body2)
    (habs : fsLookup fs0 (s.fileNameOf url1) = none) :
    s.fileNameOf url1 = s.fileNameOf url2 ∧
    (s.save net fs0 url1).result = .saved ∧
    (s.save net (s.save net fs0 url1).fs url2).result = .skipExisting ∧
    (s.save net (s.save net fs0 url1).fs url2).fs = (s.save net fs0 url1).fs ∧
    fsLookup (s.save net (s.save net fs0 url1).fs url2).fs (s.fileNameOf url2)
      = some body1 := by
  have hfn : s.fileNameOf url1 = s.fileNameOf url2 := by
    unfold Saver.fileNameOf
    rw [hseg]
  refine ⟨hfn, ?_⟩
  simp only [Saver.save, hnet1, hnet2, habs, ← hfn]
  simp [fsLookup]

/-- Witness for C10 at concrete colliding URLs. -/
theorem same_segment_urls_collide_witness :
    (Saver.mk "d").fileNameOf "http://a/p.jpg"
      = (Saver.mk "d").fileNameOf "http://b/p.jpg" ∧
    ((Saver.mk "d").save
        (fun u => if u = "http://a/p.jpg" then some "ONE" else some "TWO")
        [] "http://a/p.jpg").result = .saved ∧
    ((Saver.mk "d").save
        (fun u => if u = "http://a/p.jpg" then some "ONE" else some "TWO")
        (((Saver.mk "d").save
            (fun u => if u = "http://a/p.jpg" then some "ONE" else some "TWO")
            [] "http://a/p.jpg").fs)
        "http://b/p.jpg").result = .skipExisting ∧
    ((Saver.mk "d").save
        (fun u => if u = "http://a/p.jpg" then some "ONE" else some "TWO")
        (((Saver.mk "d").save
            (fun u => if u = "http://a/p.jpg" then some "ONE" else some "TWO")
            [] "http://a/p.jpg").fs)
        "http://b/p.jpg").fs
      = (((Saver.mk "d").save
            (fun u => if u = "http://a/p.jpg" then some "ONE" else some "TWO")
            [] "http://a/p.jpg").fs) ∧
    fsLookup ((Saver.mk "d").save
        (fun u => if u = "http://a/p.jpg" then some "ONE" else some "TWO")
        (((Saver.mk "d").save
            (fun u => if u = "http://a/p.jpg" then some "ONE" else some "TWO")
            [] "http://a/p.jpg").fs)
        "http://b/p.jpg").fs ((Saver.mk "d").fileNameOf "http://b/p.jpg")
      = some "ONE" :=
  same_segment_urls_collide (Saver.mk "d")
    (fun u => if u = "http://a/p.jpg" then some "ONE" else some "TWO")
    [] "http://a/p.jpg" "http://b/p.jpg" "ONE" "TWO"
    (by decide) (by decide) (by decide) (by decide) rfl

end Tumblream

namespace Tumblream

theorem emitPhotos_no_panic (phs : List TumblrResponsePhoto)
    (h : ∀ ph ∈ phs, ph.altSizes ≠ []) :
    emitPhotos phs
      = (phs.filterMap (fun ph => ph.altSizes.head?.map AltSize.url), false) := by
  induction phs with
  | nil => rfl
  | cons ph rest ih =>
    have hph := h ph (List.mem_cons_self _ _)
    cases ha : ph.altSizes with
    | nil => exact absurd ha hph
    | cons a as =>
      simp [emitPhotos, ha, ih (fun q hq => h q (List.mem_cons_of_mem _ hq))]

theorem processPosts_cont (w : Int) (posts : List Post)
    (hnew : ∀ p ∈ posts, w < p.id)
    (hwf : ∀ p ∈ posts, WellFormedPost p) :
    processPosts w posts = .cont ((posts.map canonicalUrls).flatten) := by
  induction posts with
  | nil => simp [processPosts]
  | cons p rest ih =>
    have h1 : w < p.id := hnew p (List.mem_cons_self _ _)
    have hwp : WellFormedPost p := hwf p (List.mem_cons_self _ _)
    have ih' := ih (fun q hq => hnew q (List.mem_cons_of_mem _ hq))
      (fun q hq => hwf q (List.mem_cons_of_mem _ hq))
    simp [processPosts, if_neg (ne_of_lt h1), if_neg (not_lt.mpr h1.le),
      emitPhotos_no_panic p.photos hwp, ih', canonicalUrls]

theorem processPosts_break (w : Int) (pre : List Post) (p : Post)
    (suf : List Post)
    (hpre : ∀ q ∈ pre, w < q.id)
    (hwf : ∀ q ∈ pre, WellFormedPost q)
    (hp : p.id ≤ w) :
    processPosts w (pre ++ p :: suf) = .stop ((pre.map canonicalUrls).flatten) := by
  induction pre with
  | nil =>
    rcases eq_or_lt_of_le hp with he | hl
    · simp [processPosts, he.symm]
    · simp [processPosts, if_neg (ne_of_gt hl), hl]
  | cons q pre' ih =>
    have h1 : w < q.id := hpre q (List.mem_cons_self _ _)
    have hwq : WellFormedPost q := hwf q (List.mem_cons_self _ _)
    have ih' := ih (fun r hr => hpre r (List.mem_cons_of_mem _ hr))
      (fun r hr => hwf r (List.mem_cons_of_mem _ hr))
    simp [processPosts, if_neg (ne_of_lt h1), if_neg (not_lt.mpr h1.le),
      emitPhotos_no_panic q.photos hwq, ih', canonicalUrls]

theorem processPosts_stop_filter (w : Int) (posts : List Post)
    (hdec : posts.Pairwise (fun a b => b.id < a.id))
    (hwf : ∀ p ∈ posts, WellFormedPost p)
    (hex : ∃ q ∈ posts, q.id ≤ w) :
    processPosts w posts
      = .stop (((posts.filter (fun p => w < p.id)).map canonicalUrls).flatten) := by
  induction posts with
  | nil => exact absurd hex (by simp)
  | cons p rest ih =>
    by_cases hp : p.id ≤ w
    · have hrest : ∀ q ∈ rest, ¬ w < q.id := by
        intro q hq
        have := (List.pairwise_cons.mp hdec).1 q hq
        exact not_lt.mpr (le_of_lt (lt_of_lt_of_le this hp))
      have hfilter : List.filter (fun p => decide (w < p.id)) rest = [] := by
        rw [List.filter_eq_nil_iff]
        intro q hq
        simpa using hrest q hq
      rcases eq_or_lt_of_le hp with he | hl
      · rw [processPosts, if_pos he.symm]
        simp [List.filter_cons, hfilter, not_lt.mpr hp]
      · rw [processPosts, if_neg (ne_of_gt hl), if_pos hl]
        simp [List.filter_cons, hfilter, not_lt.mpr hp]
    · have h1 : w < p.id := not_le.mp hp
      have hwp : WellFormedPost p := hwf p (List.mem_cons_self _ _)
      have hex' : ∃ q ∈ rest, q.id ≤ w := by
        rcases hex with ⟨q, hq, hqle⟩
        rcases List.mem_cons.mp hq with he | hm
        · exact absurd (he ▸ hqle) hp
        · exact ⟨q, hm, hqle⟩
      have ih' := ih (List.pairwise_cons.mp hdec).2
        (fun q hq => hwf q (List.mem_cons_of_mem _ hq)) hex'
      simp [processPosts, if_neg (ne_of_lt h1), if_neg (not_lt.mpr h1.le),
        emitPhotos_no_panic p.photos hwp, ih', h1, canonicalUrls]

end Tumblream

namespace Tumblream

theorem runLoop_stop (w firstSeen : Int) (p0 : Post) (ps : List Post)
    (rest : List FetchResult) (us : List String) (hw : w ≠ 0)
    (hstop : processPosts w (p0 :: ps) = .stop us) :
    runLoop w firstSeen (.ok (p0 :: ps) :: rest)
      = ⟨us, if firstSeen = 0 then p0.id else firstSeen, .ok⟩ := by
  simp [runLoop, hw, hstop]

theorem runLoop_panic (w firstSeen : Int) (p0 : Post) (ps : List Post)
    (rest : List FetchResult) (us : List String) (hw : w ≠ 0)
    (hpanic : processPosts w (p0 :: ps) = .panic us) :
    runLoop w firstSeen (.ok (p0 :: ps) :: rest)
      = ⟨us, if firstSeen = 0 then p0.id else firstSeen, .panicked⟩ := by
  simp [runLoop, hw, hpanic]

theorem runLoop_cont (w firstSeen : Int) (p0 : Post) (ps : List Post)
    (rest : List FetchResult) (us : List String) (hw : w ≠ 0)
    (hcont : processPosts w (p0 :: ps) = .cont us) :
    runLoop w firstSeen (.ok (p0 :: ps) :: rest)
      = ⟨us ++ (runLoop w (if firstSeen = 0 then p0.id else firstSeen) rest).emitted,
         (runLoop w (if firstSeen = 0 then p0.id else firstSeen) rest).firstSeen,
         (runLoop w (if firstSeen = 0 then p0.id else firstSeen) rest).outcome⟩ := by
  simp [runLoop, hw, hcont]

theorem runLoop_incremental (w : Int) (pages : List (List Post))
    (firstSeen : Int) (hw : w ≠ 0)
    (hne : ∀ pg ∈ pages, pg ≠ [])
    (hdec : pages.flatten.Pairwise (fun a b => b.id < a.id))
    (hwf : ∀ q ∈ pages.flatten, WellFormedPost q) :
    (runLoop w firstSeen (pages.map .ok)).emitted
      = ((pages.flatten.filter (fun p => w < p.id)).map canonicalUrls).flatten
    ∧ (runLoop w firstSeen (pages.map .ok)).outcome = .ok := by
  induction pages generalizing firstSeen with
  | nil => simp [runLoop]
  | cons pg rest ih =>
    have hpgne := hne pg (List.mem_cons_self _ _)
    have hflat : (pg :: rest).flatten = pg ++ rest.flatten := List.flatten_cons ..
    rw [hflat] at hdec hwf
    have hdpg : pg.Pairwise (fun a b => b.id < a.id) :=
      (List.pairwise_append.mp hdec).1
    have hdrest : rest.flatten.Pairwise (fun a b => b.id < a.id) :=
      (List.pairwise_append.mp hdec).2.1
    have hcross : ∀ a ∈ pg, ∀ b ∈ rest.flatten, b.id < a.id :=
      (List.pairwise_append.mp hdec).2.2
    have hwfpg : ∀ q ∈ pg, WellFormedPost q :=
      fun q hq => hwf q (List.mem_append_left _ hq)
    have hwfrest : ∀ q ∈ rest.flatten, WellFormedPost q :=
      fun q hq => hwf q (List.mem_append_right _ hq)
    cases pg with
    | nil => exact absurd rfl hpgne
    | cons p0 ps =>
      rw [List.map_cons]
      by_cases hall : ∀ q ∈ p0 :: ps, w < q.id
      · have hcont := processPosts_cont w (p0 :: ps) hall hwfpg
        rw [runLoop_cont w firstSeen p0 ps _ _ hw hcont]
        obtain ⟨ihe, iho⟩ := ih (if firstSeen = 0 then p0.id else firstSeen)
          (fun q hq => hne q (List.mem_cons_of_mem _ hq)) hdrest hwfrest
        have hfpg : (p0 :: ps).filter (fun p => decide (w < p.id)) = p0 :: ps :=
          List.filter_eq_self.mpr (fun a ha => by simpa using hall a ha)
        refine ⟨?_, iho⟩
        rw [hflat]
        simp only [List.filter_append, hfpg, List.map_append,
          List.flatten_append, ihe]
      · push_neg at hall
        obtain ⟨q, hqm, hqle⟩ := hall
        have hstop := processPosts_stop_filter w (p0 :: ps) hdpg hwfpg
          ⟨q, hqm, hqle⟩
        rw [runLoop_stop w firstSeen p0 ps _ _ hw hstop]
        have hfrest : rest.flatten.filter (fun p => decide (w < p.id)) = [] := by
          rw [List.filter_eq_nil_iff]
          intro b hb
          have hb1 : b.id < q.id := hcross q hqm b hb
          simpa using not_lt.mpr (le_of_lt (lt_of_lt_of_le hb1 hqle))
        refine ⟨?_, rfl⟩
        rw [hflat]
        simp only [List.filter_append, hfrest, List.map_append,
          List.flatten_append, List.append_nil, List.map_nil, List.flatten_nil]

end Tumblream

namespace Tumblream

/-- C1: with a present watermark `w` and fetched pages whose non-empty
post lists have strictly decreasing, well-formed posts within and across
pages, the scan emits exactly the canonical photo URLs of the posts with
id greater than `w` — in newest-to-oldest post order, photo order within
a post — and ends successfully, stopping at the first post with
id ≤ `w`. -/
theorem incremental_scan_emits_exactly_new (w : Int) (pages : List (List Post))
    (hw : w ≠ 0)
    (hne : ∀ pg ∈ pages, pg ≠ [])
    (hdec : pages.flatten.Pairwise (fun a b => b.id < a.id))
    (hwf : ∀ q ∈ pages.flatten, WellFormedPost q) :
    (Agent.run w (pages.map .ok)).emitted
      = ((pages.flatten.filter (fun p => w < p.id)).map canonicalUrls).flatten
    ∧ (Agent.run w (pages.map .ok)).outcome = .ok := by
  obtain ⟨he, ho⟩ := runLoop_incremental w pages 0 hw hne hdec hwf
  simp only [Agent.run]
  rw [ho]
  exact ⟨he, rfl⟩

/-- The second-tick page of the specification's scenario: posts 110,
108, 105 with their photos. -/
def scenarioPage : List Post :=
  [⟨110, [⟨[⟨"u110"⟩]⟩]⟩,
   ⟨108, [⟨[⟨"u108a"⟩]⟩, ⟨[⟨"u108b"⟩]⟩]⟩,
   ⟨105, [⟨[⟨"u105"⟩]⟩]⟩]

/-- Witness for C1 on the specification's scenario: watermark 105, one
page with posts 110, 108, 105. -/
theorem incremental_scan_emits_exactly_new_witness :
    (Agent.run 105 ([scenarioPage].map .ok)).emitted
      = ((([scenarioPage].flatten.filter
            (fun p => 105 < p.id)).map canonicalUrls).flatten)
    ∧ (Agent.run 105 ([scenarioPage].map .ok)).outcome = .ok :=
  incremental_scan_emits_exactly_new 105 [scenarioPage]
    (by decide) (by decide) (by decide) (by decide)

/-- C7: with a present watermark, a scan that reaches a post with id
strictly below the watermark emits nothing past the preceding posts,
returns success, and the scheduler keeps the scan's watermark instead
of resetting it. -/
theorem overshoot_guard_is_clean_stop (w : Int) (pre : List Post) (p : Post)
    (suf : List Post) (rest : List FetchResult)
    (hw : w ≠ 0)
    (hpre : ∀ q ∈ pre, w < q.id)
    (hwf : ∀ q ∈ pre, WellFormedPost q)
    (hp : p.id < w) :
    (Agent.run w (.ok (pre ++ p :: suf) :: rest)).emitted
      = (pre.map canonicalUrls).flatten
    ∧ (Agent.run w (.ok (pre ++ p :: suf) :: rest)).outcome = .ok
    ∧ tickAgent w (.ok (pre ++ p :: suf) :: rest)
      = some ((Agent.run w (.ok (pre ++ p :: suf) :: rest)).lastId) := by
  have hstop := processPosts_break w pre p suf hpre hwf hp.le
  have hloop : ∃ fs, runLoop w 0 (.ok (pre ++ p :: suf) :: rest)
      = ⟨(pre.map canonicalUrls).flatten, fs, .ok⟩ := by
    cases pre with
    | nil =>
      refine ⟨p.id, ?_⟩
      have h' : processPosts w (p :: suf) = .stop [] := by simpa using hstop
      simpa using runLoop_stop w 0 p suf rest [] hw h'
    | cons q pre' =>
      refine ⟨q.id, ?_⟩
      have h' : processPosts w (q :: (pre' ++ p :: suf))
          = .stop (canonicalUrls q ++ ((pre'.map canonicalUrls).flatten)) := by
        simpa using hstop
      simpa using runLoop_stop w 0 q (pre' ++ p :: suf) rest _ hw h'
  obtain ⟨fs, hloop⟩ := hloop
  simp [Agent.run, tickAgent, hloop]

/-- Witness for C7: watermark 10, a page with post 12 (one photo),
then post 5 (below the watermark), then post 3. -/
theorem overshoot_guard_is_clean_stop_witness :
    (Agent.run 10 (.ok ([⟨12, [⟨[⟨"u12"⟩]⟩]⟩] ++ ⟨5, []⟩ :: [⟨3, []⟩]) :: [])).emitted
      = ([⟨12, [⟨[⟨"u12"⟩]⟩]⟩].map canonicalUrls).flatten
    ∧ (Agent.run 10 (.ok ([⟨12, [⟨[⟨"u12"⟩]⟩]⟩] ++ ⟨5, []⟩ :: [⟨3, []⟩]) :: [])).outcome = .ok
    ∧ tickAgent 10 (.ok ([⟨12, [⟨[⟨"u12"⟩]⟩]⟩] ++ ⟨5, []⟩ :: [⟨3, []⟩]) :: [])
      = some ((Agent.run 10 (.ok ([⟨12, [⟨[⟨"u12"⟩]⟩]⟩] ++ ⟨5, []⟩ :: [⟨3, []⟩]) :: [])).lastId) :=
  overshoot_guard_is_clean_stop 10 [⟨12, [⟨[⟨"u12"⟩]⟩]⟩] ⟨5, []⟩ [⟨3, []⟩] []
    (by decide) (by decide) (by decide) (by decide)

/-- Whether a scan outcome is a typed fetch error. -/
def isFetchErr : ScanOutcome → Bool
  | .fetchErr _ => true
  | _ => false

/-- C3 counterexample: with watermark 3, a page whose newest post
(id 5) declares a photo with an empty `alt_sizes` list makes the scan
panic at `photo.AltSizes[0]` (main.go:144); it does not produce a typed
fetch error. -/
theorem empty_variants_panic_counterexample :
    (Agent.run 3 [.ok [⟨5, [⟨[]⟩]⟩]]).outcome = .panicked
    ∧ isFetchErr (Agent.run 3 [.ok [⟨5, [⟨[]⟩]⟩]]).outcome = false := by
  exact ⟨rfl, rfl⟩

/-- C3 (amended): a scanned new post whose first photo has an empty
variant list makes the scan terminate abnormally (Go panic), not with a
typed fetch error; the panic unwinds before the watermark update, so the
field is left unchanged. -/
theorem empty_variants_panic (w pid : Int) (more : List TumblrResponsePhoto)
    (suf : List Post) (rest : List FetchResult)
    (hw : w ≠ 0) (hgt : w < pid) :
    (Agent.run w (.ok (⟨pid, ⟨[]⟩ :: more⟩ :: suf) :: rest)).outcome = .panicked
    ∧ isFetchErr (Agent.run w (.ok (⟨pid, ⟨[]⟩ :: more⟩ :: suf) :: rest)).outcome
        = false
    ∧ (Agent.run w (.ok (⟨pid, ⟨[]⟩ :: more⟩ :: suf) :: rest)).lastId = w := by
  have hproc : processPosts w ((⟨pid, ⟨[]⟩ :: more⟩ : Post) :: suf) = .panic [] := by
    simp only [processPosts]
    rw [if_neg (ne_of_lt hgt), if_neg (not_lt.mpr hgt.le)]
    simp [emitPhotos]
  have hloop := runLoop_panic w 0 ⟨pid, ⟨[]⟩ :: more⟩ suf rest [] hw hproc
  simp [Agent.run, hloop, isFetchErr]

/-- Witness for the amended C3: watermark 3, newest post 5 whose only
photo has no variants. -/
theorem empty_variants_panic_witness :
    (Agent.run 3 (.ok (⟨5, ⟨[]⟩ :: []⟩ :: []) :: [])).outcome = .panicked
    ∧ isFetchErr (Agent.run 3 (.ok (⟨5, ⟨[]⟩ :: []⟩ :: []) :: [])).outcome = false
    ∧ (Agent.run 3 (.ok (⟨5, ⟨[]⟩ :: []⟩ :: []) :: [])).lastId = 3 :=
  empty_variants_panic 3 5 [] [] [] (by decide) (by decide)

end Tumblream
